import Mathlib

/- Verification development for the PlaylistSorter frontend sources.

The repository's sort-configuration engine lives in UI components:
SortLevelBuilder.tsx (two concatenated variants), CustomSortBuilder.tsx,
SortModal.tsx, FavouriteArtistsInput.tsx, and the shared types module
defining the preset specifications. The definitions below are direct
translations of those functions; JavaScript arrays become `List`, the
string-union tags become inductive types, `Array.prototype.includes`
becomes `List.contains`, and `filter` callbacks that receive the element
index are rendered over `List.enum`. -/

/-- Sort attribute tags, as in the string union `SortAttribute` of the
frontend type modules. -/
inductive SortAttribute
  | title
  | duration
  | artist_name
  | album_name
  | album_release_date
  | track_number
  | favourite_artists
deriving DecidableEq, Repr

/-- Sort direction tags, as in the string union `SortDirection`. -/
inductive SortDirection
  | asc
  | desc
deriving DecidableEq, Repr

/-- One sort level: an attribute paired with a direction. The source field
is called `attribute`, which is a Lean keyword, so the field is named
`attr` here. -/
structure SortLevel where
  attr : SortAttribute
  direction : SortDirection
deriving DecidableEq, Repr

/-- The membership test `preceding.includes("album_name") ||
preceding.includes("album_release_date")` performed by `validateLevels`. -/
def hasCtxAttrs (attrs : List SortAttribute) : Bool :=
  attrs.contains SortAttribute.album_name ||
    attrs.contains SortAttribute.album_release_date

/-- The filter callback of `validateLevels` in SortLevelBuilder.tsx: keep a
level unless it is a `track_number` level with neither `album_name` nor
`album_release_date` among `levels.slice(0, idx)`. -/
def keepLevel (levels : List SortLevel) (idx : Nat) (level : SortLevel) : Bool :=
  if level.attr != SortAttribute.track_number then true
  else
    hasCtxAttrs ((levels.take idx).map SortLevel.attr)

/-- Embedding of `validateLevels` (the repair operation) from
SortLevelBuilder.tsx; the definition is textually identical in both
concatenated variants of that file. The source is
`levels.filter((level, idx) => ...)`, a filter whose callback also
receives the element's index into the original array, rendered here by
filtering `levels.enum`. -/
def validateLevels (levels : List SortLevel) : List SortLevel :=
  ((levels.enum).filter (fun p => keepLevel levels p.1 p.2)).map Prod.snd

/-- Whether an attribute is one of the two album-context attributes that
`validateLevels` tests for. -/
def isAlbumCtxAttr : SortAttribute → Bool
  | SortAttribute.album_name => true
  | SortAttribute.album_release_date => true
  | _ => false

/-- Structural recursion equivalent to `validateLevels`: `ctx` records
whether `album_name` or `album_release_date` occurs among the input
elements already traversed, which is exactly the data the source's
`levels.slice(0, idx)` lookup extracts. The equivalence with
`validateLevels` is proved in `validateLevels_eq_go`. -/
def validateGo (ctx : Bool) : List SortLevel → List SortLevel
  | [] => []
  | l :: ls =>
    if l.attr == SortAttribute.track_number && !ctx then
      validateGo (ctx || isAlbumCtxAttr l.attr) ls
    else
      l :: validateGo (ctx || isAlbumCtxAttr l.attr) ls


namespace SLB

/- Variant 1 of SortLevelBuilder.tsx (the variant with the 4-level cap and
a 7-attribute universe). -/

/-- The `ALL_ATTRIBUTES` array of SortLevelBuilder.tsx, variant 1. -/
def ALL_ATTRIBUTES : List SortAttribute :=
  [SortAttribute.artist_name, SortAttribute.album_name,
    SortAttribute.album_release_date, SortAttribute.track_number,
    SortAttribute.favourite_artists, SortAttribute.title,
    SortAttribute.duration]

/-- The `MAX_SORT_LEVELS` constant of SortLevelBuilder.tsx, variant 1. -/
def MAX_SORT_LEVELS : Nat := 4

/-- Embedding of `getSelectableAttributes` from SortLevelBuilder.tsx,
variant 1: the attributes offered when editing the level at `index` in
place. The JS early-return chain becomes a nested conditional. -/
def getSelectableAttributes (index : Nat) (currentLevels : List SortLevel)
    (currentAttr : SortAttribute) : List SortAttribute :=
  let precedingAttrs := (currentLevels.take index).map SortLevel.attr
  let hasAlbumContext := precedingAttrs.contains SortAttribute.album_name ||
      precedingAttrs.contains SortAttribute.album_release_date
  let hasTrackNumber := precedingAttrs.contains SortAttribute.track_number
  ALL_ATTRIBUTES.filter fun a =>
    if a == currentAttr then true
    else if a == SortAttribute.favourite_artists && index != 0 then false
    else if a == SortAttribute.track_number && !hasAlbumContext then false
    else if hasTrackNumber && (a == SortAttribute.album_name ||
        a == SortAttribute.album_release_date) then false
    else true

/-- Embedding of `getValidAttributesForNewLevel` from SortLevelBuilder.tsx,
variant 1: the attributes offered for a freshly appended level. The
source's `Set` of used attributes is modelled by the underlying list,
membership being its only use. -/
def getValidAttributesForNewLevel (currentLevels : List SortLevel) :
    List SortAttribute :=
  if currentLevels.length ≥ MAX_SORT_LEVELS then []
  else
    let usedAttrs := currentLevels.map SortLevel.attr
    let allAttrs := currentLevels.map SortLevel.attr
    let newIndex := currentLevels.length
    let hasAlbumContext := allAttrs.contains SortAttribute.album_name ||
        allAttrs.contains SortAttribute.album_release_date
    let hasTrackNumber := allAttrs.contains SortAttribute.track_number
    ALL_ATTRIBUTES.filter fun a =>
      if usedAttrs.contains a then false
      else if a == SortAttribute.favourite_artists && newIndex != 0 then false
      else if a == SortAttribute.track_number && !hasAlbumContext then false
      else if hasTrackNumber && (a == SortAttribute.album_name ||
          a == SortAttribute.album_release_date) then false
      else true

/-- Embedding of `addLevel` from SortLevelBuilder.tsx, variant 1, as the
function from the current `value` to the levels handed to `onChange`;
both early returns leave the specification unchanged. -/
def addLevel (value : List SortLevel) : List SortLevel :=
  if value.length ≥ MAX_SORT_LEVELS then value
  else
    match getValidAttributesForNewLevel value with
    | [] => value
    | a :: _ => value ++ [⟨a, SortDirection.asc⟩]

/-- Embedding of `removeLevel` from SortLevelBuilder.tsx: delete the level
at `index` (`value.filter((_, i) => i !== index)`) and pass the result
through `validateLevels`. -/
def removeLevel (value : List SortLevel) (index : Nat) : List SortLevel :=
  validateLevels ((value.enum.filter (fun p => p.1 != index)).map Prod.snd)

/-- Embedding of `updateLevel` from SortLevelBuilder.tsx for an
attribute-changing update `updateLevel(index, { attribute: newAttr })`:
if another level already uses `newAttr`, that level receives the edited
level's current attribute (swap), then the edited level gets `newAttr`,
and the result passes through `validateLevels`. The UI only calls this
with `index` in range; an out-of-range `index` (where the JS source would
read `undefined.attribute`) is given a harmless default via `getD`. -/
def updateLevelAttr (value : List SortLevel) (index : Nat)
    (newAttr : SortAttribute) : List SortLevel :=
  let fallback : SortLevel := ⟨newAttr, SortDirection.asc⟩
  let otherIndex? :=
    (value.enum.find? (fun p => p.1 != index && p.2.attr == newAttr)).map Prod.fst
  let curAttr := (value.getD index fallback).attr
  let swapped :=
    match otherIndex? with
    | some j => value.set j ⟨curAttr, (value.getD j fallback).direction⟩
    | none => value
  let updated :=
    swapped.enum.map (fun p =>
      if p.1 == index then (⟨newAttr, p.2.direction⟩ : SortLevel) else p.2)
  validateLevels updated

end SLB

namespace SLB2

/- Variant 2 of SortLevelBuilder.tsx (the second half of the concatenated
file): a 6-attribute universe (no `duration`), no level cap, and no
`favourite_artists` position rule. Its `validateLevels` is textually
identical to variant 1 and is shared as the top-level `validateLevels`. -/

/-- The `ALL_ATTRIBUTES` array of SortLevelBuilder.tsx, variant 2. -/
def ALL_ATTRIBUTES : List SortAttribute :=
  [SortAttribute.artist_name, SortAttribute.album_name,
    SortAttribute.album_release_date, SortAttribute.track_number,
    SortAttribute.favourite_artists, SortAttribute.title]

/-- Embedding of `getSelectableAttributes` from SortLevelBuilder.tsx,
variant 2: no `favourite_artists` rule. -/
def getSelectableAttributes (index : Nat) (currentLevels : List SortLevel)
    (currentAttr : SortAttribute) : List SortAttribute :=
  let precedingAttrs := (currentLevels.take index).map SortLevel.attr
  let hasAlbumContext := precedingAttrs.contains SortAttribute.album_name ||
      precedingAttrs.contains SortAttribute.album_release_date
  let hasTrackNumber := precedingAttrs.contains SortAttribute.track_number
  ALL_ATTRIBUTES.filter fun a =>
    if a == currentAttr then true
    else if a == SortAttribute.track_number && !hasAlbumContext then false
    else if hasTrackNumber && (a == SortAttribute.album_name ||
        a == SortAttribute.album_release_date) then false
    else true

/-- Embedding of `getValidAttributesForNewLevel` from SortLevelBuilder.tsx,
variant 2: no length cap and no `favourite_artists` rule. -/
def getValidAttributesForNewLevel (currentLevels : List SortLevel) :
    List SortAttribute :=
  let usedAttrs := currentLevels.map SortLevel.attr
  let allAttrs := currentLevels.map SortLevel.attr
  let hasAlbumContext := allAttrs.contains SortAttribute.album_name ||
      allAttrs.contains SortAttribute.album_release_date
  let hasTrackNumber := allAttrs.contains SortAttribute.track_number
  ALL_ATTRIBUTES.filter fun a =>
    if usedAttrs.contains a then false
    else if a == SortAttribute.track_number && !hasAlbumContext then false
    else if hasTrackNumber && (a == SortAttribute.album_name ||
        a == SortAttribute.album_release_date) then false
    else true

end SLB2

namespace CSB

/- CustomSortBuilder.tsx of the live frontend. The unnamed source file
part_000 contains the same validation helpers verbatim (with the level
field named `criterion` instead of `attribute`); these definitions cover
both. -/

/-- The `ALL_ATTRIBUTES` array of CustomSortBuilder.tsx. -/
def ALL_ATTRIBUTES : List SortAttribute :=
  [SortAttribute.title, SortAttribute.duration, SortAttribute.artist_name,
    SortAttribute.album_name, SortAttribute.album_release_date,
    SortAttribute.track_number, SortAttribute.favourite_artists]

/-- The `MAX_LEVELS` constant of CustomSortBuilder.tsx. -/
def MAX_LEVELS : Nat := 3

/-- Embedding of `hasAlbumContext` from CustomSortBuilder.tsx: here
`artist_name` also counts as album context. -/
def hasAlbumContext (levels : List SortLevel) : Bool :=
  levels.any (fun l => l.attr == SortAttribute.album_name ||
    l.attr == SortAttribute.album_release_date ||
    l.attr == SortAttribute.artist_name)

/-- Embedding of `hasTrackNumber` from CustomSortBuilder.tsx. -/
def hasTrackNumber (levels : List SortLevel) : Bool :=
  levels.any (fun l => l.attr == SortAttribute.track_number)

/-- Embedding of `getAvailableAttributes` from CustomSortBuilder.tsx. -/
def getAvailableAttributes (levels : List SortLevel) (levelIndex : Nat) :
    List SortAttribute :=
  let usedAttributes := levels.map SortLevel.attr
  let previousLevels := levels.take levelIndex
  ALL_ATTRIBUTES.filter fun a =>
    if usedAttributes.contains a then false
    else if a == SortAttribute.favourite_artists && levelIndex != 0 then false
    else if a == SortAttribute.track_number &&
        !(hasAlbumContext previousLevels) then false
    else if hasTrackNumber previousLevels &&
        ([SortAttribute.album_name, SortAttribute.album_release_date,
          SortAttribute.artist_name].contains a) then false
    else true

/-- Embedding of `handleAddLevel` from CustomSortBuilder.tsx, as the
function from the current `levels` to the levels handed to `onChange`;
both early returns leave the specification unchanged. -/
def handleAddLevel (levels : List SortLevel) : List SortLevel :=
  if levels.length ≥ MAX_LEVELS then levels
  else
    match getAvailableAttributes levels levels.length with
    | [] => levels
    | a :: _ => levels ++ [⟨a, SortDirection.asc⟩]

end CSB

namespace SM

/- SortModal.tsx of the live frontend: the state feeding the `canApply`
gate of the Apply button (`disabled={!canApply || isSorting}`). -/

/-- The `ViewMode` union of SortModal.tsx. -/
inductive ViewMode
  | select
  | presetEdit
  | custom
deriving DecidableEq, Repr

/-- The pieces of SortModal state that `canApply` reads. Artist names are
modelled as character lists, matching the manual-input parser below. -/
structure ModalState where
  viewMode : ViewMode
  editedLevels : List SortLevel
  customLevels : List SortLevel
  favouriteArtists : List (List Char)

/-- Embedding of `hasFavouritesLevel` from SortModal.tsx. -/
def hasFavouritesLevel (levels : List SortLevel) : Bool :=
  levels.any (fun l => l.attr == SortAttribute.favourite_artists)

/-- The `currentLevels` ternary of SortModal.tsx: `viewMode ===
"preset-edit" ? editedLevels : customLevels`. -/
def currentLevels (st : ModalState) : List SortLevel :=
  match st.viewMode with
  | ViewMode.presetEdit => st.editedLevels
  | _ => st.customLevels

/-- Embedding of the `canApply` condition of SortModal.tsx. -/
def canApply (st : ModalState) : Bool :=
  let needsFavourites := hasFavouritesLevel (currentLevels st)
  (st.viewMode == ViewMode.presetEdit &&
      (!needsFavourites || decide (0 < st.favouriteArtists.length))) ||
    (st.viewMode == ViewMode.custom && decide (0 < st.customLevels.length) &&
      (!needsFavourites || decide (0 < st.favouriteArtists.length)))

end SM

/-- The `PRESET_FAVOURITES_FIRST` constant of the unnamed shared-types
module (the module that defines the `PRESET_*` constants imported as
`../types` by the live SortLevelBuilder.tsx and SortModal.tsx). Note the
`album_release_date` level is descending there. -/
def PRESET_FAVOURITES_FIRST : List SortLevel :=
  [⟨SortAttribute.favourite_artists, SortDirection.asc⟩,
    ⟨SortAttribute.artist_name, SortDirection.asc⟩,
    ⟨SortAttribute.album_release_date, SortDirection.desc⟩,
    ⟨SortAttribute.track_number, SortDirection.asc⟩]

namespace Part001

/-- The `favourites_first` entry of the `PRESETS` array in the unnamed
SortModal variant (source file part_001), where every level is
ascending. -/
def favouritesFirstLevels : List SortLevel :=
  [⟨SortAttribute.favourite_artists, SortDirection.asc⟩,
    ⟨SortAttribute.artist_name, SortDirection.asc⟩,
    ⟨SortAttribute.album_release_date, SortDirection.asc⟩,
    ⟨SortAttribute.track_number, SortDirection.asc⟩]

end Part001

namespace FA

/- FavouriteArtistsInput.tsx: the manual-entry parser. Strings are
modelled as character lists. -/

/-- Whitespace test of JavaScript `String.prototype.trim`, restricted to
the ASCII whitespace characters (the Unicode space separators that JS
additionally trims do not occur in the inputs any claim is about). -/
def isTrimWs (c : Char) : Bool :=
  c == ' ' || c == '\t' || c == '\n' || c == '\r' ||
    c == '\x0b' || c == '\x0c'

/-- JavaScript `String.prototype.trim` on a character list: drop leading
and trailing whitespace. -/
def trim (s : List Char) : List Char :=
  ((s.dropWhile isTrimWs).reverse.dropWhile isTrimWs).reverse

/-- Embedding of the parser in `handleManualInputChange` from
FavouriteArtistsInput.tsx:
`text.split("\n").map(s => s.trim()).filter(s => s.length > 0)`.
JavaScript `split` on a single-character separator has the same semantics
as `List.splitOn` (n separators produce n+1 fields, empties included). -/
def parseArtists (text : List Char) : List (List Char) :=
  ((text.splitOn '\n').map trim).filter (fun s => decide (0 < s.length))

end FA

theorem hasCtxAttrs_nil : hasCtxAttrs [] = false := rfl

theorem hasCtxAttrs_cons (a : SortAttribute) (as : List SortAttribute) :
    hasCtxAttrs (a :: as) = (isAlbumCtxAttr a || hasCtxAttrs as) := by
  cases a <;> simp [hasCtxAttrs, isAlbumCtxAttr, List.contains_cons]

theorem keepLevel_eq (levels : List SortLevel) (idx : Nat) (level : SortLevel) :
    keepLevel levels idx level =
      (!(level.attr == SortAttribute.track_number) ||
        hasCtxAttrs ((levels.take idx).map SortLevel.attr)) := by
  unfold keepLevel
  cases h : (level.attr == SortAttribute.track_number)
  · simp only [bne, h, Bool.not_false, Bool.true_or]
    simp
  · simp only [bne, h, Bool.not_true, Bool.false_or]
    rw [if_neg Bool.false_ne_true]

theorem enumFrom_succ_eq_map {α : Type _} :
    ∀ (xs : List α) (n : Nat),
      xs.enumFrom (n + 1) = (xs.enumFrom n).map (fun p => (p.1 + 1, p.2)) := by
  intro xs
  induction xs with
  | nil => intro n; rfl
  | cons y ys ih =>
    intro n
    simp [List.enumFrom, ih (n + 1)]

theorem filterIdx_eq_validateGo :
    ∀ (l : List SortLevel) (b : Bool),
      ((l.enum.filter (fun p =>
          !(p.2.attr == SortAttribute.track_number) || b ||
            hasCtxAttrs ((l.take p.1).map SortLevel.attr))).map Prod.snd)
        = validateGo b l := by
  intro l
  induction l with
  | nil => intro b; rfl
  | cons x xs ih =>
    intro b
    rw [List.enum_cons, List.filter_cons]
    have hshift : xs.enumFrom 1 = xs.enum.map (fun p => (p.1 + 1, p.2)) := by
      rw [show xs.enum = xs.enumFrom 0 from rfl]
      exact enumFrom_succ_eq_map xs 0
    have htail :
        (xs.enumFrom 1).filter (fun p =>
            !(p.2.attr == SortAttribute.track_number) || b ||
              hasCtxAttrs (((x :: xs).take p.1).map SortLevel.attr))
          = (xs.enum.filter (fun p =>
              !(p.2.attr == SortAttribute.track_number) ||
                (b || isAlbumCtxAttr x.attr) ||
                hasCtxAttrs ((xs.take p.1).map SortLevel.attr))).map
              (fun p => (p.1 + 1, p.2)) := by
      rw [hshift, List.filter_map]
      refine congrArg _ (List.filter_congr ?_)
      intro p _
      show (!(p.2.attr == SortAttribute.track_number) || b ||
          hasCtxAttrs (((x :: xs).take (p.1 + 1)).map SortLevel.attr))
        = (!(p.2.attr == SortAttribute.track_number) ||
            (b || isAlbumCtxAttr x.attr) ||
            hasCtxAttrs ((xs.take p.1).map SortLevel.attr))
      rw [List.take_succ_cons, List.map_cons, hasCtxAttrs_cons,
        Bool.or_assoc, Bool.or_assoc, Bool.or_assoc]
    have hmapsnd :
        ∀ (ys : List (Nat × SortLevel)),
          (ys.map (fun p => (p.1 + 1, p.2))).map Prod.snd = ys.map Prod.snd := by
      intro ys
      rw [List.map_map]
      rfl
    by_cases hcond : (x.attr == SortAttribute.track_number && !b) = true
    · have hP0 : (!(x.attr == SortAttribute.track_number) || b ||
          hasCtxAttrs (((x :: xs).take 0).map SortLevel.attr)) = false := by
        revert hcond
        cases (x.attr == SortAttribute.track_number) <;> cases b <;>
          simp [hasCtxAttrs]
      rw [if_neg (by rw [hP0]; exact Bool.false_ne_true)]
      rw [htail, hmapsnd, ih (b || isAlbumCtxAttr x.attr)]
      show validateGo (b || isAlbumCtxAttr x.attr) xs = validateGo b (x :: xs)
      rw [validateGo, if_pos hcond]
    · have hP0 : (!(x.attr == SortAttribute.track_number) || b ||
          hasCtxAttrs (((x :: xs).take 0).map SortLevel.attr)) = true := by
        revert hcond
        cases (x.attr == SortAttribute.track_number) <;> cases b <;>
          simp [hasCtxAttrs]
      rw [if_pos hP0, List.map_cons, htail, hmapsnd, ih (b || isAlbumCtxAttr x.attr)]
      show x :: validateGo (b || isAlbumCtxAttr x.attr) xs = validateGo b (x :: xs)
      rw [validateGo, if_neg hcond]

theorem validateLevels_eq_go (l : List SortLevel) :
    validateLevels l = validateGo false l := by
  unfold validateLevels
  rw [← filterIdx_eq_validateGo l false]
  refine congrArg _ (List.filter_congr ?_)
  intro p _
  rw [keepLevel_eq]
  cases (p.2.attr == SortAttribute.track_number) <;> simp

/-- A specification is legal for the repair pass when every `track_number`
level has an `album_name` or `album_release_date` level somewhere before
it. This is the invariant the claims call "album context" for
`validateLevels`. -/
def ValidSpec (l : List SortLevel) : Prop :=
  ∀ i (h : i < l.length), (l.get ⟨i, h⟩).attr = SortAttribute.track_number →
    hasCtxAttrs ((l.take i).map SortLevel.attr) = true

/-- Generalisation of `ValidSpec` seeded with context already seen. -/
def ValidFrom (ctx : Bool) (l : List SortLevel) : Prop :=
  ∀ i (h : i < l.length), (l.get ⟨i, h⟩).attr = SortAttribute.track_number →
    (ctx || hasCtxAttrs ((l.take i).map SortLevel.attr)) = true

theorem validSpec_iff_validFrom (l : List SortLevel) :
    ValidSpec l ↔ ValidFrom false l := by
  unfold ValidSpec ValidFrom
  simp only [Bool.false_or]

theorem validFrom_nil (ctx : Bool) : ValidFrom ctx [] := by
  intro i h
  exact absurd h (Nat.not_lt_zero i)

theorem validFrom_cons (ctx : Bool) (x : SortLevel) (xs : List SortLevel) :
    ValidFrom ctx (x :: xs) ↔
      ((x.attr = SortAttribute.track_number → ctx = true) ∧
        ValidFrom (ctx || isAlbumCtxAttr x.attr) xs) := by
  constructor
  · intro H
    constructor
    · intro hx
      have h0 := H 0 (Nat.succ_pos _) hx
      simpa [hasCtxAttrs_nil] using h0
    · intro j hj hjtn
      have h1 := H (j + 1) (Nat.succ_lt_succ hj) (by
        have hg : (x :: xs).get ⟨j + 1, Nat.succ_lt_succ hj⟩ = xs.get ⟨j, hj⟩ := rfl
        rw [hg]
        exact hjtn)
      rw [List.take_succ_cons, List.map_cons, hasCtxAttrs_cons,
        ← Bool.or_assoc] at h1
      exact h1
  · rintro ⟨h0, H⟩ i hi htn
    cases i with
    | zero =>
      have hx : x.attr = SortAttribute.track_number := htn
      simp [hasCtxAttrs_nil, h0 hx]
    | succ j =>
      have hj : j < xs.length := Nat.lt_of_succ_lt_succ hi
      have htn' : (xs.get ⟨j, hj⟩).attr = SortAttribute.track_number := by
        have hg : (x :: xs).get ⟨j + 1, hi⟩ = xs.get ⟨j, hj⟩ := rfl
        rw [hg] at htn
        exact htn
      have hr := H j hj htn'
      rw [List.take_succ_cons, List.map_cons, hasCtxAttrs_cons, ← Bool.or_assoc]
      exact hr

theorem validateGo_validFrom :
    ∀ (l : List SortLevel) (ctx : Bool), ValidFrom ctx (validateGo ctx l) := by
  intro l
  induction l with
  | nil =>
    intro ctx
    rw [show validateGo ctx [] = [] from rfl]
    exact validFrom_nil ctx
  | cons x xs ih =>
    intro ctx
    by_cases hc : (x.attr == SortAttribute.track_number && !ctx) = true
    · rw [show validateGo ctx (x :: xs) = validateGo (ctx || isAlbumCtxAttr x.attr) xs
        from by rw [validateGo, if_pos hc]]
      have hxa : x.attr = SortAttribute.track_number :=
        beq_iff_eq.mp ((Bool.and_eq_true _ _).mp hc).1
      have hctx0 : isAlbumCtxAttr x.attr = false := by rw [hxa]; rfl
      rw [hctx0, Bool.or_false]
      exact ih ctx
    · rw [show validateGo ctx (x :: xs) = x :: validateGo (ctx || isAlbumCtxAttr x.attr) xs
        from by rw [validateGo, if_neg hc]]
      rw [validFrom_cons]
      refine ⟨?_, ih _⟩
      intro hxa
      cases hctxv : ctx
      · exfalso
        apply hc
        rw [hxa, hctxv]
        rfl
      · rfl

theorem validateGo_of_validFrom :
    ∀ (l : List SortLevel) (ctx : Bool), ValidFrom ctx l → validateGo ctx l = l := by
  intro l
  induction l with
  | nil => intro ctx _; rfl
  | cons x xs ih =>
    intro ctx H
    rw [validFrom_cons] at H
    obtain ⟨h0, H'⟩ := H
    have hc : ¬ (x.attr == SortAttribute.track_number && !ctx) = true := by
      intro hc
      have hxa := beq_iff_eq.mp ((Bool.and_eq_true _ _).mp hc).1
      have hctx := h0 hxa
      have hb := ((Bool.and_eq_true _ _).mp hc).2
      rw [hctx] at hb
      exact absurd hb (by simp)
    rw [validateGo, if_neg hc, ih _ H']

theorem validateGo_sublist :
    ∀ (l : List SortLevel) (ctx : Bool), (validateGo ctx l).Sublist l := by
  intro l
  induction l with
  | nil => intro ctx; exact List.Sublist.refl _
  | cons x xs ih =>
    intro ctx
    by_cases hc : (x.attr == SortAttribute.track_number && !ctx) = true
    · rw [validateGo, if_pos hc]
      exact (ih _).cons x
    · rw [validateGo, if_neg hc]
      exact (ih _).cons₂ x

theorem mem_validateGo_of_ne :
    ∀ (l : List SortLevel) (ctx : Bool) (lv : SortLevel),
      lv ∈ l → lv.attr ≠ SortAttribute.track_number → lv ∈ validateGo ctx l := by
  intro l
  induction l with
  | nil =>
    intro ctx lv h _
    exact absurd h (List.not_mem_nil lv)
  | cons x xs ih =>
    intro ctx lv hmem hne
    by_cases hc : (x.attr == SortAttribute.track_number && !ctx) = true
    · rw [validateGo, if_pos hc]
      have hxa : x.attr = SortAttribute.track_number :=
        beq_iff_eq.mp ((Bool.and_eq_true _ _).mp hc).1
      rcases List.mem_cons.mp hmem with h | h
      · exact absurd (by rw [h, hxa]) hne
      · exact ih _ lv h hne
    · rw [validateGo, if_neg hc]
      rcases List.mem_cons.mp hmem with h | h
      · rw [h]
        exact List.mem_cons_self x _
      · exact List.mem_cons_of_mem x (ih _ lv h hne)

theorem contains_true_iff_mem {α : Type _} [DecidableEq α] {l : List α} {a : α} :
    l.contains a = true ↔ a ∈ l :=
  List.elem_iff

theorem contains_eq_false_of_not_mem {α : Type _} [DecidableEq α]
    {l : List α} {a : α} (h : a ∉ l) : l.contains a = false := by
  cases hc : l.contains a
  · rfl
  · exact absurd (contains_true_iff_mem.mp hc) h

theorem contains_eq_true_of_mem {α : Type _} [DecidableEq α]
    {l : List α} {a : α} (h : a ∈ l) : l.contains a = true :=
  contains_true_iff_mem.mpr h

theorem validSpec_validateLevels (l : List SortLevel) :
    ValidSpec (validateLevels l) := by
  rw [validateLevels_eq_go, validSpec_iff_validFrom]
  exact validateGo_validFrom l false

/-- C1: `validateLevels` (repair) drops exactly the `track_number` levels
lacking preceding album context (`album_name` or `album_release_date`,
the context attributes this function tests): the result equals the
left-to-right dropping pass `validateGo`, it is a subsequence of the
input, every `track_number` level it keeps has album context among the
levels preceding it in the (current) repaired sequence, every
non-`track_number` level of the input is kept, an already-valid list is
returned unchanged, and the single-level `track_number` list repairs to
the empty list. -/
theorem c1_repair_characterisation (l : List SortLevel) :
    validateLevels l = validateGo false l ∧
    (validateLevels l).Sublist l ∧
    ValidSpec (validateLevels l) ∧
    (∀ lv ∈ l, lv.attr ≠ SortAttribute.track_number → lv ∈ validateLevels l) ∧
    (ValidSpec l → validateLevels l = l) ∧
    validateLevels [⟨SortAttribute.track_number, SortDirection.asc⟩] = [] := by
  refine ⟨validateLevels_eq_go l, ?_, validSpec_validateLevels l, ?_, ?_, by decide⟩
  · rw [validateLevels_eq_go]
    exact validateGo_sublist l false
  · intro lv hm hne
    rw [validateLevels_eq_go]
    exact mem_validateGo_of_ne l false lv hm hne
  · intro hv
    rw [validateLevels_eq_go]
    exact validateGo_of_validFrom l false ((validSpec_iff_validFrom l).mp hv)

/-- Witness for C1: a concrete already-valid list is returned unchanged. -/
theorem c1_repair_characterisation_witness :
    validateLevels
      [⟨SortAttribute.album_name, SortDirection.asc⟩,
        ⟨SortAttribute.track_number, SortDirection.asc⟩] =
      [⟨SortAttribute.album_name, SortDirection.asc⟩,
        ⟨SortAttribute.track_number, SortDirection.asc⟩] :=
  (c1_repair_characterisation _).2.2.2.2.1 (by
    intro i h htn
    match i, h, htn with
    | 0, _, htn => simp at htn
    | 1, _, _ => decide
    | n + 2, h, _ => simp at h)

/-- C2: repair is idempotent, `validateLevels (validateLevels x) =
validateLevels x`, for every list of sort levels (the definition of
`validateLevels` is shared verbatim by both SortLevelBuilder variants). -/
theorem c2_repair_idempotent (x : List SortLevel) :
    validateLevels (validateLevels x) = validateLevels x := by
  rw [validateLevels_eq_go x, validateLevels_eq_go (validateGo false x)]
  exact validateGo_of_validFrom _ false (validateGo_validFrom x false)

/-- C6 counterexample: `PRESET_FAVOURITES_FIRST` (the constant the live
SortLevelBuilder and SortModal import) is not the all-ascending four-level
specification the claim describes. -/
theorem c6_favourites_first_not_all_asc :
    PRESET_FAVOURITES_FIRST ≠
      [⟨SortAttribute.favourite_artists, SortDirection.asc⟩,
        ⟨SortAttribute.artist_name, SortDirection.asc⟩,
        ⟨SortAttribute.album_release_date, SortDirection.asc⟩,
        ⟨SortAttribute.track_number, SortDirection.asc⟩] := by
  decide

/-- C6 amended: the favourites-first preset of the shared types module has
`album_release_date` descending (the other three levels ascending), while
the `PRESETS` entry of the unnamed SortModal variant (part_001) is the
all-ascending sequence the claim describes. -/
theorem c6_favourites_first_presets :
    PRESET_FAVOURITES_FIRST =
      [⟨SortAttribute.favourite_artists, SortDirection.asc⟩,
        ⟨SortAttribute.artist_name, SortDirection.asc⟩,
        ⟨SortAttribute.album_release_date, SortDirection.desc⟩,
        ⟨SortAttribute.track_number, SortDirection.asc⟩] ∧
    Part001.favouritesFirstLevels =
      [⟨SortAttribute.favourite_artists, SortDirection.asc⟩,
        ⟨SortAttribute.artist_name, SortDirection.asc⟩,
        ⟨SortAttribute.album_release_date, SortDirection.asc⟩,
        ⟨SortAttribute.track_number, SortDirection.asc⟩] :=
  ⟨rfl, rfl⟩

/-- C10: the specifications emitted by the edit operations of
SortLevelBuilder (`removeLevel`, and `updateLevel` with an attribute
change and swap) always satisfy the invariant that each `track_number`
level is preceded by an `album_name` or `album_release_date` level,
because both pass their result through `validateLevels`. -/
theorem c10_edit_operations_preserve_validity (value : List SortLevel)
    (index : Nat) (newAttr : SortAttribute) :
    ValidSpec (SLB.removeLevel value index) ∧
    ValidSpec (SLB.updateLevelAttr value index newAttr) :=
  ⟨validSpec_validateLevels _, validSpec_validateLevels _⟩

/-- C7: if the specification currently in play contains a
`favourite_artists` level and the supplied ranking is empty, `canApply`
is false (so the Apply button, `disabled={!canApply || isSorting}`, never
invokes the sort); with at least one artist supplied the favourites
refusal does not trigger: in preset-edit mode `canApply` is true, and in
custom mode a favourites-containing specification yields `canApply` true
as well. -/
theorem c7_can_apply_requires_ranking (st : SM.ModalState) :
    (SM.hasFavouritesLevel (SM.currentLevels st) = true →
      st.favouriteArtists = [] → SM.canApply st = false) ∧
    (st.favouriteArtists ≠ [] →
      (st.viewMode = SM.ViewMode.presetEdit → SM.canApply st = true) ∧
      (st.viewMode = SM.ViewMode.custom →
        SM.hasFavouritesLevel st.customLevels = true →
        SM.canApply st = true)) := by
  obtain ⟨vm, el, cl, fa⟩ := st
  have b1 : (SM.ViewMode.select == SM.ViewMode.presetEdit) = false := rfl
  have b2 : (SM.ViewMode.select == SM.ViewMode.custom) = false := rfl
  have b3 : (SM.ViewMode.presetEdit == SM.ViewMode.presetEdit) = true := rfl
  have b4 : (SM.ViewMode.presetEdit == SM.ViewMode.custom) = false := rfl
  have b5 : (SM.ViewMode.custom == SM.ViewMode.presetEdit) = false := rfl
  have b6 : (SM.ViewMode.custom == SM.ViewMode.custom) = true := rfl
  constructor
  · intro hfav hemp
    subst hemp
    have d0 : (decide (0 < ([] : List (List Char)).length)) = false := rfl
    cases vm <;>
      simp only [SM.currentLevels] at hfav <;>
      simp [SM.canApply, SM.currentLevels, hfav, b1, b2, b3, b4, b5, b6, d0]
  · intro hne
    have hlen : decide (0 < fa.length) = true := by
      cases fa with
      | nil => exact absurd rfl hne
      | cons a as => simp
    constructor
    · rintro rfl
      simp [SM.canApply, SM.currentLevels, hlen, b3, b4]
    · rintro rfl hfavc
      have hcl : decide (0 < cl.length) = true := by
        cases cl with
        | nil => simp [SM.hasFavouritesLevel] at hfavc
        | cons a as => simp
      simp [SM.canApply, SM.currentLevels, hlen, hcl, hfavc, b5, b6]

/-- Witness for C7: with a favourites level and no artists the gate is
closed, with one artist it opens. -/
theorem c7_can_apply_requires_ranking_witness :
    SM.canApply ⟨SM.ViewMode.presetEdit,
      [⟨SortAttribute.favourite_artists, SortDirection.asc⟩], [], []⟩ = false ∧
    SM.canApply ⟨SM.ViewMode.presetEdit,
      [⟨SortAttribute.favourite_artists, SortDirection.asc⟩], [],
      [['Q']]⟩ = true := by
  constructor
  · exact (c7_can_apply_requires_ranking _).1 (by decide) rfl
  · exact ((c7_can_apply_requires_ranking _).2 (by simp)).1 rfl

theorem csb_hasAlbumContext_of_artist {ls : List SortLevel}
    (h : SortAttribute.artist_name ∈ ls.map SortLevel.attr) :
    CSB.hasAlbumContext ls = true := by
  obtain ⟨lv, hlv, hattr⟩ := List.mem_map.mp h
  exact List.any_eq_true.mpr ⟨lv, hlv, by rw [hattr]; rfl⟩

theorem csb_hasTrackNumber_of_mem {ls : List SortLevel}
    (h : SortAttribute.track_number ∈ ls.map SortLevel.attr) :
    CSB.hasTrackNumber ls = true := by
  obtain ⟨lv, hlv, hattr⟩ := List.mem_map.mp h
  exact List.any_eq_true.mpr ⟨lv, hlv, by rw [hattr]; rfl⟩

/-- C3 counterexample: in the live SortLevelBuilder variant, `artist_name`
does not provide album context. With only an `artist_name` level before
index 1, `track_number` is not offered by `getSelectableAttributes`, and
repair (`validateLevels`) drops a `track_number` level preceded only by
`artist_name` instead of keeping it. -/
theorem c3_artist_name_not_album_context_in_slb :
    SortAttribute.track_number ∉ SLB.getSelectableAttributes 1
      [⟨SortAttribute.artist_name, SortDirection.asc⟩,
        ⟨SortAttribute.title, SortDirection.asc⟩] SortAttribute.title ∧
    validateLevels [⟨SortAttribute.artist_name, SortDirection.asc⟩,
      ⟨SortAttribute.track_number, SortDirection.asc⟩] =
      [⟨SortAttribute.artist_name, SortDirection.asc⟩] := by
  decide

/-- C3 amended: whether `artist_name` provides album context depends on
the variant. In CustomSortBuilder, a preceding `artist_name` level makes
`track_number` selectable (provided `track_number` is not already used,
since that builder also excludes duplicates); in the live
SortLevelBuilder variant, `track_number` is never offered without a
preceding `album_name` or `album_release_date` (unless it is the edited
level's current attribute), and repair drops a `track_number` level
preceded only by `artist_name`. -/
theorem c3_artist_name_context_by_variant (levels : List SortLevel) (i : Nat) :
    (SortAttribute.artist_name ∈ (levels.take i).map SortLevel.attr →
      SortAttribute.track_number ∉ levels.map SortLevel.attr →
      SortAttribute.track_number ∈ CSB.getAvailableAttributes levels i) ∧
    (SortAttribute.album_name ∉ (levels.take i).map SortLevel.attr →
      SortAttribute.album_release_date ∉ (levels.take i).map SortLevel.attr →
      ∀ cur, cur ≠ SortAttribute.track_number →
        SortAttribute.track_number ∉ SLB.getSelectableAttributes i levels cur) ∧
    validateLevels [⟨SortAttribute.artist_name, SortDirection.asc⟩,
      ⟨SortAttribute.track_number, SortDirection.asc⟩] =
      [⟨SortAttribute.artist_name, SortDirection.asc⟩] := by
  refine ⟨?_, ?_, by decide⟩
  · intro hart hnotn
    have hctx : CSB.hasAlbumContext (levels.take i) = true :=
      csb_hasAlbumContext_of_artist hart
    have hused : ((levels.map SortLevel.attr).contains
        SortAttribute.track_number) = false :=
      contains_eq_false_of_not_mem hnotn
    have e1 : (SortAttribute.track_number ==
        SortAttribute.favourite_artists) = false := rfl
    have e2 : (SortAttribute.track_number ==
        SortAttribute.track_number) = true := rfl
    have e3 : ([SortAttribute.album_name, SortAttribute.album_release_date,
        SortAttribute.artist_name].contains SortAttribute.track_number)
        = false := rfl
    simp only [CSB.getAvailableAttributes, List.mem_filter]
    refine ⟨by decide, ?_⟩
    simp [hused, hctx, e1, e2, e3]
    intro x hx hxa
    exact hnotn (List.mem_map.mpr ⟨x, hx, hxa⟩)
  · intro han hard cur hcur hmem
    simp only [SLB.getSelectableAttributes, List.mem_filter] at hmem
    obtain ⟨-, hpred⟩ := hmem
    have h1 : (SortAttribute.track_number == cur) = false :=
      beq_eq_false_iff_ne.mpr (Ne.symm hcur)
    have h2 : (((levels.take i).map SortLevel.attr).contains
        SortAttribute.album_name) = false :=
      contains_eq_false_of_not_mem han
    have h3 : (((levels.take i).map SortLevel.attr).contains
        SortAttribute.album_release_date) = false :=
      contains_eq_false_of_not_mem hard
    have e1 : (SortAttribute.track_number ==
        SortAttribute.favourite_artists) = false := rfl
    have e2 : (SortAttribute.track_number ==
        SortAttribute.track_number) = true := rfl
    simp [h1, h2, h3, e1, e2] at hpred
    rw [← List.map_take] at hpred
    rcases hpred with h | h
    · exact han h
    · exact hard h

/-- Witness for C3 amended: with `[artist_name, title]` built in
CustomSortBuilder, `track_number` is offered at index 2, while the live
SortLevelBuilder refuses it at index 2 when editing a `title` level. -/
theorem c3_artist_name_context_by_variant_witness :
    SortAttribute.track_number ∈ CSB.getAvailableAttributes
      [⟨SortAttribute.artist_name, SortDirection.asc⟩,
        ⟨SortAttribute.title, SortDirection.asc⟩] 2 ∧
    SortAttribute.track_number ∉ SLB.getSelectableAttributes 2
      [⟨SortAttribute.artist_name, SortDirection.asc⟩,
        ⟨SortAttribute.title, SortDirection.asc⟩] SortAttribute.title := by
  constructor
  · exact (c3_artist_name_context_by_variant _ 2).1 (by decide) (by decide)
  · exact (c3_artist_name_context_by_variant _ 2).2.1 (by decide) (by decide)
      SortAttribute.title (by decide)

/-- C4 counterexample: repair does not remove an `album_name` level
sitting after a `track_number` level (`validateLevels` only ever drops
`track_number` levels), and the SortLevelBuilder append operation still
offers `artist_name` after an existing `track_number` level. -/
theorem c4_album_after_track_number_not_removed :
    validateLevels
      [⟨SortAttribute.album_release_date, SortDirection.asc⟩,
        ⟨SortAttribute.track_number, SortDirection.asc⟩,
        ⟨SortAttribute.album_name, SortDirection.asc⟩] =
      [⟨SortAttribute.album_release_date, SortDirection.asc⟩,
        ⟨SortAttribute.track_number, SortDirection.asc⟩,
        ⟨SortAttribute.album_name, SortDirection.asc⟩] ∧
    SortAttribute.artist_name ∈ SLB.getValidAttributesForNewLevel
      [⟨SortAttribute.album_name, SortDirection.asc⟩,
        ⟨SortAttribute.track_number, SortDirection.asc⟩] := by
  decide

/-- C4 amended: after a `track_number` level, `album_name` and
`album_release_date` are withheld from a freshly appended level by
SortLevelBuilder's `getValidAttributesForNewLevel` (which still offers
`artist_name`), CustomSortBuilder's `getAvailableAttributes` withholds
all three of `album_name`, `album_release_date` and `artist_name`, and
SortLevelBuilder's `getSelectableAttributes` withholds `album_name`
except as the edited level's current attribute; repair however removes
nothing: every non-`track_number` level survives `validateLevels`. -/
theorem c4_album_attrs_after_track_number (levels : List SortLevel) :
    (SortAttribute.track_number ∈ levels.map SortLevel.attr →
      SortAttribute.album_name ∉ SLB.getValidAttributesForNewLevel levels ∧
      SortAttribute.album_release_date ∉
        SLB.getValidAttributesForNewLevel levels) ∧
    (∀ i, SortAttribute.track_number ∈ (levels.take i).map SortLevel.attr →
      SortAttribute.album_name ∉ CSB.getAvailableAttributes levels i ∧
      SortAttribute.album_release_date ∉ CSB.getAvailableAttributes levels i ∧
      SortAttribute.artist_name ∉ CSB.getAvailableAttributes levels i) ∧
    (∀ i cur, SortAttribute.track_number ∈ (levels.take i).map SortLevel.attr →
      cur ≠ SortAttribute.album_name →
      SortAttribute.album_name ∉ SLB.getSelectableAttributes i levels cur) ∧
    (∀ lv ∈ levels, lv.attr ≠ SortAttribute.track_number →
      lv ∈ validateLevels levels) := by
  refine ⟨?_, ?_, ?_, ?_⟩
  · intro htn
    refine ⟨?_, ?_⟩ <;>
    · intro hmem
      by_cases hlen : levels.length ≥ SLB.MAX_SORT_LEVELS
      · simp only [SLB.getValidAttributesForNewLevel] at hmem
        rw [if_pos hlen] at hmem
        exact absurd hmem (List.not_mem_nil _)
      · simp only [SLB.getValidAttributesForNewLevel] at hmem
        rw [if_neg hlen] at hmem
        have hpred := List.of_mem_filter hmem
        split_ifs at hpred with h1 h2 h3 h4 <;>
          first
            | exact h4 (by rw [contains_eq_true_of_mem htn]; rfl)
            | exact absurd hpred Bool.false_ne_true
  · intro i htn
    refine ⟨?_, ?_, ?_⟩ <;>
    · intro hmem
      simp only [CSB.getAvailableAttributes] at hmem
      have hpred := List.of_mem_filter hmem
      split_ifs at hpred with h1 h2 h3 h4 <;>
        first
          | exact h4 (by rw [csb_hasTrackNumber_of_mem htn]; rfl)
          | exact absurd hpred Bool.false_ne_true
  · intro i cur htn hcur hmem
    simp only [SLB.getSelectableAttributes] at hmem
    have hpred := List.of_mem_filter hmem
    split_ifs at hpred with h1 h2 h3 h4 <;>
      first
        | exact hcur (beq_iff_eq.mp h1).symm
        | exact h4 (by rw [contains_eq_true_of_mem htn]; rfl)
        | exact absurd hpred Bool.false_ne_true
  · intro lv hlv hne
    rw [validateLevels_eq_go]
    exact mem_validateGo_of_ne levels false lv hlv hne

/-- Witness for C4 amended, at a concrete list with a `track_number`
level in second position. -/
theorem c4_album_attrs_after_track_number_witness :
    SortAttribute.album_name ∉ SLB.getValidAttributesForNewLevel
      [⟨SortAttribute.album_release_date, SortDirection.asc⟩,
        ⟨SortAttribute.track_number, SortDirection.asc⟩] ∧
    SortAttribute.artist_name ∉ CSB.getAvailableAttributes
      [⟨SortAttribute.album_release_date, SortDirection.asc⟩,
        ⟨SortAttribute.track_number, SortDirection.asc⟩] 2 :=
  ⟨((c4_album_attrs_after_track_number _).1 (by decide)).1,
    ((c4_album_attrs_after_track_number _).2.1 2 (by decide)).2.2⟩

/-- C5 counterexample: `favourite_artists` can be offered past index 0.
The second SortLevelBuilder variant has no position rule at all and
offers it for a freshly appended second level, and even the first
variant's `getSelectableAttributes` returns it at index 1 when it is the
edited level's current attribute. -/
theorem c5_favourites_offered_past_index_zero :
    SortAttribute.favourite_artists ∈ SLB2.getValidAttributesForNewLevel
      [⟨SortAttribute.artist_name, SortDirection.asc⟩] ∧
    SortAttribute.favourite_artists ∈ SLB.getSelectableAttributes 1
      [⟨SortAttribute.artist_name, SortDirection.asc⟩,
        ⟨SortAttribute.favourite_artists, SortDirection.asc⟩]
      SortAttribute.favourite_artists := by
  decide

/-- C5 amended: the index-0 rule for `favourite_artists` holds in
CustomSortBuilder's `getAvailableAttributes` and in variant 1 of
SortLevelBuilder: `getValidAttributesForNewLevel` never offers it for a
level appended after the first, and `getSelectableAttributes` never
offers it at a positive index unless it is the edited level's current
attribute; variant 2 of SortLevelBuilder imposes no such rule. -/
theorem c5_favourites_only_at_first_level (levels : List SortLevel)
    (i : Nat) (cur : SortAttribute) :
    (0 < i →
      SortAttribute.favourite_artists ∉ CSB.getAvailableAttributes levels i) ∧
    (0 < levels.length →
      SortAttribute.favourite_artists ∉
        SLB.getValidAttributesForNewLevel levels) ∧
    (0 < i → cur ≠ SortAttribute.favourite_artists →
      SortAttribute.favourite_artists ∉
        SLB.getSelectableAttributes i levels cur) := by
  refine ⟨?_, ?_, ?_⟩
  · intro hi hmem
    have hne0 : (i != 0) = true := by
      simp only [bne_iff_ne]
      omega
    simp only [CSB.getAvailableAttributes] at hmem
    have hpred := List.of_mem_filter hmem
    split_ifs at hpred with h1 h2 h3 h4 <;>
      first
        | exact h2 (by rw [hne0]; rfl)
        | exact absurd hpred Bool.false_ne_true
  · intro hlen hmem
    by_cases hcap : levels.length ≥ SLB.MAX_SORT_LEVELS
    · simp only [SLB.getValidAttributesForNewLevel] at hmem
      rw [if_pos hcap] at hmem
      exact absurd hmem (List.not_mem_nil _)
    · have hne0 : (levels.length != 0) = true := by
        simp only [bne_iff_ne]
        omega
      simp only [SLB.getValidAttributesForNewLevel] at hmem
      rw [if_neg hcap] at hmem
      have hpred := List.of_mem_filter hmem
      split_ifs at hpred with h1 h2 h3 h4 <;>
        first
          | exact h2 (by rw [hne0]; rfl)
          | exact absurd hpred Bool.false_ne_true
  · intro hi hcur hmem
    have hne0 : (i != 0) = true := by
      simp only [bne_iff_ne]
      omega
    simp only [SLB.getSelectableAttributes] at hmem
    have hpred := List.of_mem_filter hmem
    split_ifs at hpred with h1 h2 h3 h4 <;>
      first
        | exact hcur (beq_iff_eq.mp h1).symm
        | exact h2 (by rw [hne0]; rfl)
        | exact absurd hpred Bool.false_ne_true

/-- Witness for C5 amended at index 1. -/
theorem c5_favourites_only_at_first_level_witness :
    SortAttribute.favourite_artists ∉ CSB.getAvailableAttributes
      [⟨SortAttribute.artist_name, SortDirection.asc⟩] 1 ∧
    SortAttribute.favourite_artists ∉ SLB.getValidAttributesForNewLevel
      [⟨SortAttribute.artist_name, SortDirection.asc⟩] ∧
    SortAttribute.favourite_artists ∉ SLB.getSelectableAttributes 1
      [⟨SortAttribute.artist_name, SortDirection.asc⟩,
        ⟨SortAttribute.title, SortDirection.asc⟩] SortAttribute.title :=
  ⟨(c5_favourites_only_at_first_level _ 1 SortAttribute.title).1 (by decide),
    (c5_favourites_only_at_first_level _ 1 SortAttribute.title).2.1 (by decide),
    (c5_favourites_only_at_first_level _ 1 SortAttribute.title).2.2 (by decide)
      (by decide)⟩

theorem slb_addLevel_le (levels : List SortLevel)
    (h : levels.length ≤ 4) : (SLB.addLevel levels).length ≤ 4 := by
  unfold SLB.addLevel
  by_cases hlen : levels.length ≥ SLB.MAX_SORT_LEVELS
  · rw [if_pos hlen]
    exact h
  · rw [if_neg hlen]
    have hlt : levels.length < 4 := by
      simpa [SLB.MAX_SORT_LEVELS] using hlen
    cases hav : SLB.getValidAttributesForNewLevel levels with
    | nil => exact h
    | cons a rest =>
      simp only [List.length_append, List.length_cons, List.length_nil]
      omega

theorem csb_handleAddLevel_le (levels : List SortLevel)
    (h : levels.length ≤ 3) : (CSB.handleAddLevel levels).length ≤ 3 := by
  unfold CSB.handleAddLevel
  by_cases hlen : levels.length ≥ CSB.MAX_LEVELS
  · rw [if_pos hlen]
    exact h
  · rw [if_neg hlen]
    have hlt : levels.length < 3 := by
      simpa [CSB.MAX_LEVELS] using hlen
    cases hav : CSB.getAvailableAttributes levels levels.length with
    | nil => exact h
    | cons a rest =>
      simp only [List.length_append, List.length_cons, List.length_nil]
      omega

/-- C8 counterexample: CustomSortBuilder's attribute source
(`getAvailableAttributes`) carries no level cap — at a full 3-level
specification it still returns a non-empty list (the cap lives only in
`handleAddLevel` and the add-button guard). -/
theorem c8_csb_attrs_nonempty_at_cap :
    CSB.getAvailableAttributes
      [⟨SortAttribute.title, SortDirection.asc⟩,
        ⟨SortAttribute.duration, SortDirection.asc⟩,
        ⟨SortAttribute.artist_name, SortDirection.asc⟩] 3 ≠ [] := by
  decide

/-- C8 amended: the caps hold through the add operations. In
SortLevelBuilder variant 1, a list at or beyond 4 levels gets no
attributes from `getValidAttributesForNewLevel` and `addLevel` leaves it
unchanged; in CustomSortBuilder, `handleAddLevel` leaves a list at or
beyond 3 levels unchanged (its `getAvailableAttributes` itself carries no
cap); consequently both add operations preserve their cap and every
specification reachable from the empty one by repeated adds stays within
it. -/
theorem c8_level_caps (levels : List SortLevel) (n : Nat) :
    (4 ≤ levels.length →
      SLB.getValidAttributesForNewLevel levels = [] ∧
      SLB.addLevel levels = levels) ∧
    (3 ≤ levels.length → CSB.handleAddLevel levels = levels) ∧
    (levels.length ≤ 4 → (SLB.addLevel levels).length ≤ 4) ∧
    (levels.length ≤ 3 → (CSB.handleAddLevel levels).length ≤ 3) ∧
    (SLB.addLevel^[n] []).length ≤ 4 ∧
    (CSB.handleAddLevel^[n] []).length ≤ 3 := by
  refine ⟨?_, ?_, slb_addLevel_le levels, csb_handleAddLevel_le levels, ?_, ?_⟩
  · intro h
    have hge : levels.length ≥ SLB.MAX_SORT_LEVELS := by
      simpa [SLB.MAX_SORT_LEVELS] using h
    constructor
    · unfold SLB.getValidAttributesForNewLevel
      rw [if_pos hge]
    · unfold SLB.addLevel
      rw [if_pos hge]
  · intro h
    have hge : levels.length ≥ CSB.MAX_LEVELS := by
      simpa [CSB.MAX_LEVELS] using h
    unfold CSB.handleAddLevel
    rw [if_pos hge]
  · induction n with
    | zero => simp
    | succ m ih =>
      rw [Function.iterate_succ_apply']
      exact slb_addLevel_le _ ih
  · induction n with
    | zero => simp
    | succ m ih =>
      rw [Function.iterate_succ_apply']
      exact csb_handleAddLevel_le _ ih

/-- Witness for C8 amended at concrete full specifications. -/
theorem c8_level_caps_witness :
    SLB.getValidAttributesForNewLevel
      [⟨SortAttribute.artist_name, SortDirection.asc⟩,
        ⟨SortAttribute.album_name, SortDirection.asc⟩,
        ⟨SortAttribute.album_release_date, SortDirection.asc⟩,
        ⟨SortAttribute.track_number, SortDirection.asc⟩] = [] ∧
    CSB.handleAddLevel
      [⟨SortAttribute.title, SortDirection.asc⟩,
        ⟨SortAttribute.duration, SortDirection.asc⟩,
        ⟨SortAttribute.artist_name, SortDirection.asc⟩] =
      [⟨SortAttribute.title, SortDirection.asc⟩,
        ⟨SortAttribute.duration, SortDirection.asc⟩,
        ⟨SortAttribute.artist_name, SortDirection.asc⟩] :=
  ⟨((c8_level_caps _ 0).1 (by decide)).1, (c8_level_caps _ 0).2.1 (by decide)⟩

/-- C9: the manual favourite-artists parser returns exactly the trimmed,
non-empty lines of its input in order: parsing the newline-join of any
(newline-free) lines yields those lines trimmed and filtered for
non-emptiness, and an input without any newline yields at most the single
entry consisting of the whole trimmed input — in particular commas never
split an entry. -/
theorem c9_parse_manual_input :
    (∀ (lines : List (List Char)), lines ≠ [] →
      (∀ p ∈ lines, '\n' ∉ p) →
      FA.parseArtists (List.intercalate ['\n'] lines) =
        (lines.map FA.trim).filter (fun s => decide (0 < s.length))) ∧
    (∀ s : List Char, '\n' ∉ s →
      FA.parseArtists s =
        if 0 < (FA.trim s).length then [FA.trim s] else []) := by
  constructor
  · intro lines h1 h2
    unfold FA.parseArtists
    rw [List.splitOn_intercalate lines '\n' h2 h1]
  · intro s hs
    unfold FA.parseArtists
    have hsplit : s.splitOn '\n' = [s] := by
      unfold List.splitOn
      refine List.splitOnP_eq_single _ _ ?_
      intro x hx hbeq
      have hxn : x = '\n' := beq_iff_eq.mp hbeq
      rw [hxn] at hx
      exact hs hx
    rw [hsplit, List.map_cons, List.map_nil, List.filter_cons]
    by_cases hlen : 0 < (FA.trim s).length
    · rw [if_pos hlen]
      simp [hlen]
    · rw [if_neg hlen]
      simp [hlen]

/-- Witness for C9: an artist name containing a comma stays one entry,
the newline separates the next one. -/
theorem c9_parse_manual_input_witness :
    FA.parseArtists (List.intercalate ['\n']
        [['A', ',', ' ', 'B'], ['C']]) =
      ([['A', ',', ' ', 'B'], ['C']].map FA.trim).filter
        (fun s => decide (0 < s.length)) ∧
    FA.parseArtists ['A', ',', ' ', 'B', '\n', 'C'] =
      [['A', ',', ' ', 'B'], ['C']] := by
  constructor
  · exact c9_parse_manual_input.1 [['A', ',', ' ', 'B'], ['C']] (by decide)
      (by decide)
  · decide
